import Mathlib

/-!
# Verification of the claude-code-manager job subsystem

A shallow embedding, in Lean 4, of the background-job lifecycle subsystem
(`src/jobs/store.ts`, `src/jobs/job-manager.ts`) and of the iterative
task-list execution engine (`src/executors/loop.ts`, `src/ralph/prd.ts`,
`src/ralph/progress.ts`) of the claude-code-manager repository, together
with theorems settling the specification claims about them.

Modelling conventions:
* timestamps (`Date` values) are natural numbers (milliseconds); each call
  to `new Date()` / `Date.now()` in the source is modelled by an explicit
  `now : Nat` argument threaded to the operation;
* JavaScript `Map`s are association lists with `Map.set` semantics
  (replace in place, append when the key is new);
* operations that `throw` return `Except String`;
* the worker process (`SingleShotExecutor.execute`) never throws — it
  catches all its errors and returns `success := false` — so it is
  modelled as a total function from the iteration number to a result;
* file I/O effects of the loop engine (progress-log appends, backlog
  saves) are recorded in an explicit effect trail carried by the loop
  state, and the wall-clock `totalDuration` field of a loop result is not
  modelled (fixed to 0): no claim mentions it.
-/

namespace CCM

/-- Job status, `src/jobs/types.ts`:
`'pending' | 'running' | 'completed' | 'failed' | 'cancelled'`. -/
inductive JobStatus where
  | pending
  | running
  | completed
  | failed
  | cancelled
deriving DecidableEq, Repr

/-- The literal list `['completed', 'failed', 'cancelled']` the source
tests membership in (store.ts line 92, job-manager.ts lines 177/221/266). -/
def terminalStatuses : List JobStatus := [.completed, .failed, .cancelled]

/-- `['completed','failed','cancelled'].includes(status)`. -/
def JobStatus.isTerminal (s : JobStatus) : Bool := terminalStatuses.contains s

/-- Job type, `src/jobs/types.ts`: `'single-shot' | 'loop'`. -/
inductive JobType where
  | singleShot
  | loop
deriving DecidableEq, Repr

/-- `JobProgress`, `src/jobs/types.ts`. -/
structure JobProgress where
  currentIteration : Nat
  totalIterations : Option Nat
  currentTaskId : Option String
  tasksCompleted : Nat
  tasksTotal : Nat
  lastUpdate : Nat
  message : Option String
deriving DecidableEq, Repr

/-- `Partial<JobProgress>` as passed to `JobStore.updateProgress`
(a `lastUpdate` member would be ignored by the merge, which always stamps
`new Date()`, so it is omitted here). -/
structure PartialProgress where
  currentIteration : Option Nat := none
  totalIterations : Option Nat := none
  currentTaskId : Option String := none
  tasksCompleted : Option Nat := none
  tasksTotal : Option Nat := none
  message : Option String := none
deriving DecidableEq, Repr

/-! ## Backlog (PRD) model — `src/types.ts`, `src/ralph/prd.ts` -/

/-- `UserStory`, `src/types.ts`. -/
structure UserStory where
  id : String
  title : String
  description : String
  acceptanceCriteria : List String
  priority : Int
  estimatedComplexity : Nat
  passes : Bool
deriving DecidableEq, Repr

/-- `PRDSpec`, `src/types.ts`. -/
structure PRDSpec where
  project : String
  branchName : String
  description : String
  userStories : List UserStory
deriving DecidableEq, Repr

/-- Insert a story into an already-sorted list, after every story of
priority `≤` its own only when strictly smaller — i.e. before the first
story of priority `≥` its own. Together with `sortByPriority` this is the
unique stable sort by the comparator `(a, b) => a.priority - b.priority`
that ES2019 `Array.prototype.sort` performs in `PRD.getNextStory`
(prd.ts line 41): the inserted story comes earlier in the original list
than everything already in the sorted tail, so placing it before
equal-priority stories preserves original order among ties. -/
def insertByPriority (s : UserStory) : List UserStory → List UserStory
  | [] => [s]
  | t :: ts =>
    if s.priority ≤ t.priority then s :: t :: ts else t :: insertByPriority s ts

/-- Stable sort by ascending `priority` (see `insertByPriority`). -/
def sortByPriority : List UserStory → List UserStory
  | [] => []
  | s :: ss => insertByPriority s (sortByPriority ss)

/-- `PRD.getNextStory`, prd.ts lines 33–44: filter to incomplete stories,
return `null` when none remain, otherwise stable-sort the (fresh, filtered)
array by ascending priority and return its first element. -/
def getNextStory (spec : PRDSpec) : Option UserStory :=
  let incomplete := spec.userStories.filter (fun s => !s.passes)
  match incomplete with
  | [] => none
  | _ :: _ => (sortByPriority incomplete).head?

/-- `PRD.getUserStories`, prd.ts line 29. -/
def getUserStories (spec : PRDSpec) : List UserStory := spec.userStories

/-- `PRD.getProgress`, prd.ts lines 57–60. -/
def getProgress (spec : PRDSpec) : Nat × Nat :=
  ((spec.userStories.filter (fun s => s.passes)).length, spec.userStories.length)

/-- Modelled from the spec: `PRD.markStoryComplete`, invoked by the loop
engine at src/executors/loop.ts line 114, has no definition in the
provided sources (the `PRD` class in src/ralph/prd.ts does not declare
it). Per the spec it marks the selected sub-task complete — "mark the
sub-task complete"; the completion flag "transitions false→true exactly
once, never reverts" — so it sets `passes := true` on the story with the
given id. -/
def markStoryComplete (spec : PRDSpec) (id : String) : PRDSpec :=
  { spec with
    userStories := spec.userStories.map fun s =>
      if s.id == id then { s with passes := true } else s }

/-- Spec-order selection, written from the spec's words for claim C7:
"sub-task selection is a total order by `(priority ascending,
original-index ascending)`" — the first incomplete story of minimal
priority, i.e. the incomplete story that every other incomplete story
either strictly exceeds in priority or ties with while appearing no
earlier. `specFirstMin l` returns the first element of `l` attaining the
minimum priority. -/
def specFirstMin : List UserStory → Option UserStory
  | [] => none
  | x :: xs =>
    match specFirstMin xs with
    | none => some x
    | some m => if x.priority ≤ m.priority then some x else some m

/-- Spec-order next sub-task (see `specFirstMin`): first-by-original-index
among the minimal-priority incomplete stories. -/
def specNextStory (spec : PRDSpec) : Option UserStory :=
  specFirstMin (spec.userStories.filter (fun s => !s.passes))

/-! ## Loop execution engine — `src/executors/loop.ts` -/

/-- The payload the per-iteration `storySchema` validates
(loop.ts lines 77–83): `{success, summary, filesChanged, learnings?, passes}`. -/
structure StoryData where
  success : Bool
  summary : String
  filesChanged : List String
  learnings : Option (List String)
  passes : Bool
deriving DecidableEq, Repr

/-- The slice of `ExecuteResult` the loop engine and job manager inspect:
`success`, the schema-validated `data` (absent on failure), and
`duration`. `SingleShotExecutor.execute` catches every error it meets and
returns `success := false`, so a worker invocation always yields such a
value and never raises. -/
structure ExecResult where
  success : Bool
  data : Option StoryData
  duration : Nat
deriving DecidableEq, Repr

/-- `IterationResult`, `src/types.ts` (the `commits` field is filled with
`[]` by the loop engine, loop.ts line 101; `findings` and `error` are
never set there and are omitted). -/
structure IterationResult where
  iteration : Nat
  taskId : String
  success : Bool
  commits : List String := []
  duration : Nat
deriving DecidableEq, Repr

/-- `ProgressEntry`, `src/types.ts`, as appended by
`ProgressTracker.append` (progress.ts lines 14–26). -/
structure ProgressEntry where
  storyId : String
  summary : String
  filesChanged : List String
  learnings : List String
deriving DecidableEq, Repr

/-- The `mode` values `TaskState` admits (`'code' | 'research'`). -/
inductive Mode where
  | code
  | research
deriving DecidableEq, Repr

/-- `TaskState`, `src/types.ts`. -/
structure TaskState where
  mode : Mode
  tasksTotal : Nat
  tasksCompleted : Nat
  tasks : List UserStory
deriving DecidableEq, Repr

/-- `LoopResult`, `src/types.ts`. `totalDuration` (wall-clock elapsed
milliseconds) is not modelled and is fixed to 0. -/
structure LoopResult where
  success : Bool
  completed : Bool
  iterations : List IterationResult
  totalDuration : Nat := 0
  finalState : TaskState
  progressLog : String
deriving DecidableEq, Repr

/-- The fields of `ExecuteLoopOptions` that steer the control flow of
`LoopExecutor.execute`: whether a progress-log path was supplied
(`progressFile`), the raw `maxIterations` option, the `mode`, and whether
`errorStrategy?.mode === 'fail-fast'`. The worker outcome per iteration
and the cancellation token's state per check are passed separately as
functions. -/
structure LoopOptions where
  progressFile : Bool
  maxIterations : Option Nat := none
  mode : Option Mode := none
  failFast : Bool := false
deriving DecidableEq, Repr

/-- `options.maxIterations || 100` (loop.ts line 42): JavaScript `||`
treats 0 as falsy, so both an absent option and an explicit 0 yield the
default 100. -/
def effectiveMaxIterations (o : Option Nat) : Nat :=
  match o with
  | none => 100
  | some n => if n = 0 then 100 else n

/-- `(options.mode as 'code' | 'research') || 'code'` (loop.ts line 53). -/
def effectiveMode (o : Option Mode) : Mode := o.getD .code

/-- The mutable state one `LoopExecutor.execute` run threads through its
iterations: the PRD spec (mutated by `markStoryComplete`), the
accumulated `iterations` array, and the engine's I/O effect trail — the
progress-log entries appended so far and the backlog snapshots written by
each `prd.save`. -/
structure LoopIterState where
  spec : PRDSpec
  iterations : List IterationResult
  progressEntries : List ProgressEntry
  backlogSaves : List (List UserStory)
deriving DecidableEq, Repr

/-- `${e.storyId}: ${e.summary}` lines joined by newlines — what
`LoopExecutor.execute` derives from `ProgressTracker.read` on the success
and max-iterations paths (loop.ts lines 65–69 and 159–163), with the
tracker's lossy text round-trip idealised to recover each appended
entry's story id and summary. -/
def renderProgressLog (opts : LoopOptions) (entries : List ProgressEntry) : String :=
  if opts.progressFile then
    String.intercalate "\n" (entries.map fun e => e.storyId ++ ": " ++ e.summary)
  else ""

/-- The result returned when `getNextStory` finds no incomplete story
(loop.ts lines 50–71): success, completed, final backlog snapshot. -/
def allCompleteResult (opts : LoopOptions) (st : LoopIterState) : LoopResult :=
  { success := true
    completed := true
    iterations := st.iterations
    finalState :=
      { mode := effectiveMode opts.mode
        tasksTotal := (getUserStories st.spec).length
        tasksCompleted := ((getUserStories st.spec).filter (fun s => s.passes)).length
        tasks := getUserStories st.spec }
    progressLog := renderProgressLog opts st.progressEntries }

/-- The result built after the `while` loop exits without returning —
reached both when the iteration cap runs out and when `break` fires on
cancellation (loop.ts lines 146–164). -/
def maxIterationsResult (opts : LoopOptions) (st : LoopIterState) : LoopResult :=
  { success := false
    completed := false
    iterations := st.iterations
    finalState :=
      { mode := effectiveMode opts.mode
        tasksTotal := (getUserStories st.spec).length
        tasksCompleted := ((getUserStories st.spec).filter (fun s => s.passes)).length
        tasks := getUserStories st.spec }
    progressLog := renderProgressLog opts st.progressEntries }

/-- The `catch` block of `LoopExecutor.execute` (loop.ts lines 165–182):
any error thrown inside the loop — in particular the
`TaskIncompleteError(completed, total)` raised on a fail-fast failure —
is swallowed and turned into a failure result whose `finalState` has
`tasksTotal: 0`, `tasksCompleted: 0`, `tasks: []`, and whose
`progressLog` is `''`; only the `iterations` accumulated so far survive. -/
def loopCatchResult (opts : LoopOptions) (st : LoopIterState) : LoopResult :=
  { success := false
    completed := false
    iterations := st.iterations
    finalState :=
      { mode := effectiveMode opts.mode
        tasksTotal := 0
        tasksCompleted := 0
        tasks := [] }
    progressLog := "" }

/-- Outcome of one pass through the `while` body: either the run finishes
with a result, or it continues with an updated state. -/
inductive LoopStepOut where
  | finished (r : LoopResult) (st : LoopIterState)
  | next (st : LoopIterState)
deriving DecidableEq, Repr

/-- One pass through the body of the `while` loop of
`LoopExecutor.execute` (loop.ts lines 44–143), entered with the already
incremented iteration counter: select the next story (returning the
all-complete result when none remains); invoke the worker; push the
iteration record; on `result.success && result.data`, mark the story
complete when `data.passes`, append a progress-log entry when a
progress path was supplied, and save the PRD; otherwise, when the error
strategy is fail-fast, throw `TaskIncompleteError` (surfacing as the
catch result); finally `break` out of the loop when the cancellation
token reports cancelled. `worker n` is the `ExecResult` of the
single-shot execution performed in iteration `n`; `cancelled n` is what
`cancelToken?.isCancelled()` returns at the end of iteration `n`. -/
def loopStep (worker : Nat → ExecResult) (cancelled : Nat → Bool)
    (opts : LoopOptions) (iteration : Nat) (st : LoopIterState) : LoopStepOut :=
  match getNextStory st.spec with
  | none => .finished (allCompleteResult opts st) st
  | some story =>
    let result := worker iteration
    let iterResult : IterationResult :=
      { iteration := iteration
        taskId := story.id
        success := result.success
        commits := []
        duration := result.duration }
    let st := { st with iterations := st.iterations ++ [iterResult] }
    match result.success, result.data with
    | true, some data =>
      let spec' := if data.passes then markStoryComplete st.spec story.id else st.spec
      let entries' :=
        if opts.progressFile then
          st.progressEntries ++
            [{ storyId := story.id
               summary := data.summary
               filesChanged := data.filesChanged
               learnings := data.learnings.getD [] }]
        else st.progressEntries
      let st := { st with
        spec := spec'
        progressEntries := entries'
        backlogSaves := st.backlogSaves ++ [spec'.userStories] }
      if cancelled iteration then .finished (maxIterationsResult opts st) st else .next st
    | _, _ =>
      if opts.failFast then .finished (loopCatchResult opts st) st
      else if cancelled iteration then .finished (maxIterationsResult opts st) st
      else .next st

/-- The `while (iteration < maxIterations)` loop, driven by the remaining
fuel `maxIterations - iteration`; when the fuel runs out the
max-iterations result is produced (loop.ts lines 144–164). -/
def runLoopAux (worker : Nat → ExecResult) (cancelled : Nat → Bool)
    (opts : LoopOptions) (iteration : Nat) :
    Nat → LoopIterState → LoopResult × LoopIterState
  | 0, st => (maxIterationsResult opts st, st)
  | fuel + 1, st =>
    match loopStep worker cancelled opts (iteration + 1) st with
    | .finished r st' => (r, st')
    | .next st' => runLoopAux worker cancelled opts (iteration + 1) fuel st'

/-- `LoopExecutor.execute` after a successful `PRD.load` of `spec`:
run the bounded loop from iteration 0 with an empty effect trail. The
second component is the final engine state — the loaded PRD as mutated
and the I/O effect trail. -/
def runLoop (worker : Nat → ExecResult) (cancelled : Nat → Bool)
    (opts : LoopOptions) (spec : PRDSpec) : LoopResult × LoopIterState :=
  runLoopAux worker cancelled opts 0 (effectiveMaxIterations opts.maxIterations)
    { spec := spec, iterations := [], progressEntries := [], backlogSaves := [] }

/-! ## Job store — `src/jobs/store.ts` -/

/-- A job's terminal payload: the single-shot `ExecuteResult` or the loop
`LoopResult` (the store treats it as opaque; the manager reads
`result.success` and, for loops, `result.finalState`/`result.completed`). -/
inductive JobResultPayload where
  | single (r : ExecResult)
  | loop (r : LoopResult)
deriving DecidableEq, Repr

/-- A `Job` record (`SingleShotJob | LoopJob`, `src/jobs/types.ts`):
the shared `JobBase` fields plus the loop-only `iterations` array, which
is `[]` for single-shot jobs (only `executeLoop`'s wrapper ever pushes to
it). The `options` member (task specs, callbacks, cancellation handle) is
opaque to every store operation and is not modelled; the cancellation
handle lives in the manager state. -/
structure Job where
  id : String
  type : JobType
  status : JobStatus
  createdAt : Nat
  startedAt : Option Nat := none
  completedAt : Option Nat := none
  error : Option String := none
  progress : Option JobProgress := none
  result : Option JobResultPayload := none
  iterations : List IterationResult := []
deriving DecidableEq, Repr

/-- JavaScript `Map.set`: replace in place when the key exists, append
otherwise. -/
def mapSet : List (String × Job) → String → Job → List (String × Job)
  | [], k, v => [(k, v)]
  | (k', v') :: rest, k, v =>
    if k' == k then (k, v) :: rest else (k', v') :: mapSet rest k v

/-- JavaScript `Map.get`. -/
def mapGet : List (String × Job) → String → Option Job
  | [], _ => none
  | (k', v') :: rest, k => if k' == k then some v' else mapGet rest k

/-- JavaScript `Map.delete` (dropping the entry). -/
def mapDelete (m : List (String × Job)) (k : String) : List (String × Job) :=
  m.filter fun kv => kv.1 != k

/-- The in-memory side of `JobStore`: the `jobs` map and the `maxJobAge`
option (store.ts line 27; default 24 h in milliseconds). File persistence
is modelled separately by `serializeJob` / `loadPersistedJobs`; the
cleanup timer is exercised by calling `cleanup` explicitly. -/
structure JobStoreState where
  jobs : List (String × Job)
  maxJobAge : Nat := 24 * 60 * 60 * 1000
deriving DecidableEq, Repr

/-- `JobStore.save` (store.ts lines 48–54): upsert by id (the best-effort
file write has no effect on the in-memory state). -/
def save (st : JobStoreState) (job : Job) : JobStoreState :=
  { st with jobs := mapSet st.jobs job.id job }

/-- `JobStore.get` (store.ts line 59). -/
def get (st : JobStoreState) (jobId : String) : Option Job :=
  mapGet st.jobs jobId

/-- `JobStore.updateStatus` (store.ts lines 80–101): throws on unknown
id; sets the status unconditionally — there is no terminal-state guard;
sets `startedAt` on first entry to `running`; sets `completedAt` on every
entry to a terminal status; stores `error` when given and truthy (a
JavaScript `if (error)` skips the empty string); saves. -/
def updateStatus (st : JobStoreState) (jobId : String) (status : JobStatus)
    (error : Option String) (now : Nat) : Except String JobStoreState :=
  match mapGet st.jobs jobId with
  | none => .error ("Job not found: " ++ jobId)
  | some job =>
    let job := { job with status := status }
    let job :=
      if status == .running && job.startedAt == none then
        { job with startedAt := some now }
      else job
    let job := if status.isTerminal then { job with completedAt := some now } else job
    let job :=
      match error with
      | some e => if e == "" then job else { job with error := some e }
      | none => job
    .ok (save st job)

/-- The merge object literal of `JobStore.updateProgress` (store.ts
lines 112–121): each field falls back with `??` from the partial value
to the previous progress — zero for the counters, pass-through for the
optional fields — and `lastUpdate` is stamped to now. -/
def mergeProgress (prev : Option JobProgress) (p : PartialProgress) (now : Nat) :
    JobProgress :=
  { currentIteration := p.currentIteration.getD ((prev.map (·.currentIteration)).getD 0)
    totalIterations := p.totalIterations <|> prev.bind (·.totalIterations)
    currentTaskId := p.currentTaskId <|> prev.bind (·.currentTaskId)
    tasksCompleted := p.tasksCompleted.getD ((prev.map (·.tasksCompleted)).getD 0)
    tasksTotal := p.tasksTotal.getD ((prev.map (·.tasksTotal)).getD 0)
    lastUpdate := now
    message := p.message <|> prev.bind (·.message) }

/-- `JobStore.updateProgress` (store.ts lines 106–124): throws on unknown
id; merges the partial fields onto the previous progress (see
`mergeProgress`); saves. -/
def updateProgress (st : JobStoreState) (jobId : String) (p : PartialProgress)
    (now : Nat) : Except String JobStoreState :=
  match mapGet st.jobs jobId with
  | none => .error ("Job not found: " ++ jobId)
  | some job =>
    .ok (save st { job with progress := some (mergeProgress job.progress p now) })

/-- `JobStore.updateResult` (store.ts lines 129–137). -/
def updateResult (st : JobStoreState) (jobId : String)
    (result : JobResultPayload) : Except String JobStoreState :=
  match mapGet st.jobs jobId with
  | none => .error ("Job not found: " ++ jobId)
  | some job => .ok (save st { job with result := some result })

/-- `JobStore.delete` (store.ts lines 142–153): removes from memory
(idempotent; the backing-file unlink swallows a missing file). -/
def deleteFromStore (st : JobStoreState) (jobId : String) : JobStoreState :=
  { st with jobs := mapDelete st.jobs jobId }

/-- `JobStore.cleanup` (store.ts lines 175–193): delete every terminal
job whose `completedAt ?? createdAt` lies strictly more than `maxJobAge`
in the past; return the new state and the number deleted. Timestamps are
compared as integers, as `Date.getTime()` arithmetic is. -/
def cleanup (st : JobStoreState) (now : Nat) : JobStoreState × Nat :=
  let toDelete := st.jobs.filter fun kv =>
    kv.2.status.isTerminal &&
      ((now : Int) - (kv.2.completedAt.getD kv.2.createdAt : Nat) > (st.maxJobAge : Int))
  (toDelete.foldl (fun acc kv => deleteFromStore acc kv.1) st, toDelete.length)

/-! ### Persistence — `serializeJob` / `deserializeJob` / `loadPersistedJobs` -/

/-- `SerializedJob` (`src/jobs/types.ts`), the per-job JSON document.
Timestamps round-trip through ISO-8601 strings losslessly and stay `Nat`
here; the serialized `options` (callbacks stripped, schema replaced by a
type tag) are opaque and not modelled. -/
structure SerializedJob where
  id : String
  type : JobType
  status : JobStatus
  createdAt : Nat
  startedAt : Option Nat := none
  completedAt : Option Nat := none
  error : Option String := none
  progress : Option JobProgress := none
  result : Option JobResultPayload := none
  iterations : Option (List IterationResult) := none
deriving DecidableEq, Repr

/-- `JobStore.serializeJob` (store.ts lines 271–285): field-for-field
snapshot; `iterations` is written only for loop jobs. -/
def serializeJob (job : Job) : SerializedJob :=
  { id := job.id
    type := job.type
    status := job.status
    createdAt := job.createdAt
    startedAt := job.startedAt
    completedAt := job.completedAt
    error := job.error
    progress := job.progress
    result := job.result
    iterations := if job.type == .loop then some job.iterations else none }

/-- `JobStore.deserializeJob` (store.ts lines 287–317): rebuild the
record; a loop job's missing `iterations` becomes `[]`
(`serialized.iterations || []`), and a single-shot job carries none. -/
def deserializeJob (s : SerializedJob) : Job :=
  { id := s.id
    type := s.type
    status := s.status
    createdAt := s.createdAt
    startedAt := s.startedAt
    completedAt := s.completedAt
    error := s.error
    progress := s.progress
    result := s.result
    iterations := if s.type == .loop then s.iterations.getD [] else [] }

/-- The parse outcome of one persisted `.json` file: `malformed` when
`JSON.parse`/deserialization threw (the file is skipped and logged), or
the decoded document. -/
inductive JobFile where
  | malformed
  | ok (s : SerializedJob)
deriving DecidableEq, Repr

/-- The reserved error message `loadPersistedJobs` stamps on interrupted
jobs (store.ts line 247). -/
def interruptedMessage : String := "Job was interrupted by process restart"

/-- Processing of one persisted job file inside the loop of
`JobStore.loadPersistedJobs` (store.ts lines 235–265): a malformed file
is skipped; a non-terminal job is loaded, with a `running` job forcibly
transitioned to `failed` with the reserved message and `completedAt`
stamped; a terminal job is loaded iff its `completedAt ?? createdAt` is
strictly within `maxJobAge` of now, and its file is deleted otherwise.
Returns the updated map and whether the file was unlinked. -/
def loadOne (m : List (String × Job)) (maxJobAge now : Nat) :
    JobFile → List (String × Job) × Bool
  | .malformed => (m, false)
  | .ok s =>
    let job := deserializeJob s
    if !job.status.isTerminal then
      let job :=
        if job.status == .running then
          { job with
            status := .failed
            error := some interruptedMessage
            completedAt := some now }
        else job
      (mapSet m job.id job, false)
    else
      if (now : Int) - (job.completedAt.getD job.createdAt : Nat) < (maxJobAge : Int) then
        (mapSet m job.id job, false)
      else (m, true)

/-- `JobStore.loadPersistedJobs` over the directory listing (the `.json`
files in readdir order), as run by `initialize()` on a store whose map
starts empty: fold `loadOne`, counting deleted files. -/
def loadPersistedJobs (maxJobAge now : Nat) (files : List JobFile) :
    List (String × Job) × Nat :=
  files.foldl
    (fun acc f =>
      let step := loadOne acc.1 maxJobAge now f
      (step.1, acc.2 + (if step.2 then 1 else 0)))
    ([], 0)

/-! ## Job manager — `src/jobs/job-manager.ts`

The manager's background executions are genuine concurrent promises: the
atomic pieces between their `await` points interleave with API calls such
as `cancel` and further `start*` calls. Each such piece is embedded as a
function on the manager state, and a scenario is a composition of those
functions in one of the orders the event loop can realise. -/

/-- The manager state: the store, the `runningJobs` map's key set (a job
id is present from `start*` until the execution promise's `finally`
runs), the `cancellationTokens` map (loop jobs only; the Bool is the
token's `cancelled` flag), and `maxConcurrentJobs`
(`options.maxConcurrentJobs ?? Infinity`; `none` models Infinity). -/
structure MState where
  store : JobStoreState
  runningJobs : List String := []
  cancellationTokens : List (String × Bool) := []
  maxConcurrentJobs : Option Nat := none
deriving DecidableEq, Repr

/-- `JobManager.checkConcurrencyLimit` (job-manager.ts lines 399–406):
`true` when a start must be rejected, i.e. `runningJobs.size >=
maxConcurrentJobs` (never, against Infinity). -/
def checkConcurrencyLimit (m : MState) : Bool :=
  match m.maxConcurrentJobs with
  | none => false
  | some n => m.runningJobs.length ≥ n

/-- The admission error message (job-manager.ts lines 401–405,
truncated to its fixed prefix). -/
def admissionError : String := "Maximum concurrent jobs limit reached"

/-- Add a key to the `runningJobs` map's key set (`Map.set`). -/
def runningAdd (l : List String) (id : String) : List String :=
  if l.contains id then l else l ++ [id]

/-- Remove a key from the `runningJobs` map's key set (`Map.delete`). -/
def runningRemove (l : List String) (id : String) : List String :=
  l.filter (· != id)

/-- The pending `SingleShotJob` record `startSingleShot` builds
(job-manager.ts lines 88–101). -/
def newSingleShotJob (jobId : String) (now : Nat) : Job :=
  { id := jobId
    type := .singleShot
    status := .pending
    createdAt := now
    progress := some
      { currentIteration := 0
        totalIterations := none
        currentTaskId := none
        tasksCompleted := 0
        tasksTotal := 1
        lastUpdate := now
        message := some "Job created" } }

/-- The pending `LoopJob` record `startLoop` builds (job-manager.ts
lines 134–148); `tasksTotal` starts at 0 ("Will be updated when PRD is
loaded"). -/
def newLoopJob (jobId : String) (now : Nat) : Job :=
  { id := jobId
    type := .loop
    status := .pending
    createdAt := now
    iterations := []
    progress := some
      { currentIteration := 0
        totalIterations := none
        currentTaskId := none
        tasksCompleted := 0
        tasksTotal := 0
        lastUpdate := now
        message := some "Job created" } }

/-- `JobManager.startSingleShot` (job-manager.ts lines 79–115) up to the
point where it returns the job id: check admission (throwing when the
limit is reached), build the pending job under the caller-supplied or
generated id, `store.save` it (an upsert — a pre-existing job under the
same id is silently replaced), and register the detached execution in
`runningJobs`. -/
def startSingleShot (m : MState) (jobId : String) (now : Nat) :
    Except String (MState × String) :=
  if checkConcurrencyLimit m then .error admissionError
  else
    let job := newSingleShotJob jobId now
    .ok
      ({ m with
          store := save m.store job
          runningJobs := runningAdd m.runningJobs jobId },
        jobId)

/-- `JobManager.startLoop` (job-manager.ts lines 121–163) up to the point
where it returns the job id: like `startSingleShot`, additionally
creating a fresh (uncancelled) cancellation token for the job. -/
def startLoop (m : MState) (jobId : String) (now : Nat) :
    Except String (MState × String) :=
  if checkConcurrencyLimit m then .error admissionError
  else
    let job := newLoopJob jobId now
    .ok
      ({ m with
          store := save m.store job
          runningJobs := runningAdd m.runningJobs jobId
          cancellationTokens := (jobId, false) ::
            m.cancellationTokens.filter (·.1 != jobId) },
        jobId)

/-- `JobPollResult` (`src/jobs/types.ts`); `duration` is an integer since
`completedAt.getTime() - startedAt.getTime()` may be negative. -/
structure JobPollResult where
  id : String
  status : JobStatus
  progress : Option JobProgress
  finished : Bool
  result : Option JobResultPayload
  error : Option String
  duration : Option Int
deriving DecidableEq, Repr

/-- `JobManager.poll` (job-manager.ts lines 169–191): throws on unknown
id; `finished` iff the status is terminal; `duration = completedAt -
startedAt` only when finished and both timestamps are present; the
`result` is included only when finished; `error` is passed through. -/
def poll (m : MState) (jobId : String) : Except String JobPollResult :=
  match get m.store jobId with
  | none => .error ("Job not found: " ++ jobId)
  | some job =>
    let finished := terminalStatuses.contains job.status
    .ok
      { id := job.id
        status := job.status
        progress := job.progress
        finished := finished
        result := if finished then job.result else none
        error := job.error
        duration :=
          if finished then
            match job.completedAt, job.startedAt with
            | some c, some s => some ((c : Int) - (s : Int))
            | _, _ => none
          else none }

/-- `JobManager.cancel` (job-manager.ts lines 213–235): throws on unknown
id; returns `false` without touching anything when the job is already
terminal; otherwise fires the job's cancellation token (when one exists),
marks the status `cancelled`, and returns `true`. The `runningJobs` entry
is *not* removed — only the execution promise's `finally` does that. -/
def cancel (m : MState) (jobId : String) (now : Nat) :
    Except String (MState × Bool) :=
  match get m.store jobId with
  | none => .error ("Job not found: " ++ jobId)
  | some job =>
    if job.status.isTerminal then .ok (m, false)
    else
      let tokens := m.cancellationTokens.map fun kv =>
        if kv.1 == jobId then (kv.1, true) else kv
      match updateStatus m.store jobId .cancelled none now with
      | .error e => .error e
      | .ok st => .ok ({ m with store := st, cancellationTokens := tokens }, true)

/-- `JobManager.getRunningCount` (job-manager.ts line 256). -/
def getRunningCount (m : MState) : Nat := m.runningJobs.length

/-- The number of non-terminal jobs in the store — what the spec's
admission sentence counts ("count of non-terminal jobs"). -/
def nonTerminalCount (m : MState) : Nat :=
  (m.store.jobs.filter fun kv => !kv.2.status.isTerminal).length

/-! ### Background execution steps

`executeSingleShot` (job-manager.ts lines 289–318) and `executeLoop`
(lines 320–391) run detached: `start*` fires them and returns. Their
store writes are grouped below into the chunks delimited by the long
suspension (the worker invocation / the loop run), which is where the
interleavings the claims speak about occur. Event hooks are fire-and-
continue and touch no modelled state. -/

/-- The head of `executeSingleShot` (job-manager.ts lines 291–295), run
when the detached promise first gets the event loop: mark the job
running, stamp the "Executing task..." progress message; then the worker
invocation suspends the execution. -/
def execSingleShotBegin (m : MState) (jobId : String) (now1 now2 : Nat) :
    Except String MState := do
  let st ← updateStatus m.store jobId .running none now1
  let st ← updateProgress st jobId { message := some "Executing task..." } now2
  .ok { m with store := st }

/-- The tail of `executeSingleShot` (job-manager.ts lines 297–307), run
after the worker invocation resolves with `result`: store the result,
bump the progress to `tasksCompleted: 1` with the outcome message, and
set the final status from `result.success` — `completed` or `failed`,
with no check of the status reached meanwhile (there is no analogue of
`executeLoop`'s cancelled test). -/
def execSingleShotFinish (m : MState) (jobId : String) (result : ExecResult)
    (now1 now2 : Nat) : Except String MState := do
  let st ← updateResult m.store jobId (.single result)
  let st ← updateProgress st jobId
    { tasksCompleted := some 1
      message := some (if result.success then "Task completed" else "Task failed") }
    now1
  let st ← updateStatus st jobId (if result.success then .completed else .failed)
    none now2
  .ok { m with store := st }

/-- The `finally` of a single-shot execution promise (job-manager.ts
lines 110–112): drop the job from `runningJobs`. -/
def settleSingleShot (m : MState) (jobId : String) : MState :=
  { m with runningJobs := runningRemove m.runningJobs jobId }

/-- The `finally` of a loop execution promise (job-manager.ts lines
157–160): drop the job from `runningJobs` and discard its token. -/
def settleLoop (m : MState) (jobId : String) : MState :=
  { m with
    runningJobs := runningRemove m.runningJobs jobId
    cancellationTokens := m.cancellationTokens.filter (·.1 != jobId) }

/-- The head of `executeLoop` (job-manager.ts lines 322–326). -/
def execLoopBegin (m : MState) (jobId : String) (now1 now2 : Nat) :
    Except String MState := do
  let st ← updateStatus m.store jobId .running none now1
  let st ← updateProgress st jobId { message := some "Starting loop execution..." } now2
  .ok { m with store := st }

/-- The wrapped `onIteration` callback `executeLoop` installs
(job-manager.ts lines 331–355), run once per loop iteration: push the
iteration result onto the job's `iterations` and save; then merge a
progress update — `currentIteration`, `currentTaskId`, `tasksCompleted`
incremented on success from the *previously read* job's value (`?? 0`),
and the iteration message. Note: `tasksTotal` is not among the updated
fields. -/
def loopOnIteration (m : MState) (jobId : String) (iter : IterationResult)
    (now : Nat) : Except String MState :=
  let currentJob := get m.store jobId
  let st :=
    match currentJob with
    | some job => save m.store { job with iterations := job.iterations ++ [iter] }
    | none => m.store
  let prevCompleted := ((currentJob.bind (·.progress)).map (·.tasksCompleted)).getD 0
  match updateProgress st jobId
      { currentIteration := some iter.iteration
        currentTaskId := some iter.taskId
        tasksCompleted := some
          (if iter.success then prevCompleted + 1 else prevCompleted)
        message := some ("Completed iteration " ++ toString iter.iteration ++ ": "
          ++ iter.taskId) } now with
  | .error e => .error e
  | .ok st => .ok { m with store := st }

/-- The partial progress `executeLoop` merges after the loop resolves
(job-manager.ts lines 361–365): the final-state counts and an outcome
message. -/
def loopFinishPartial (result : LoopResult) : PartialProgress :=
  { tasksCompleted := some result.finalState.tasksCompleted
    tasksTotal := some result.finalState.tasksTotal
    message := some (if result.completed then "All tasks completed" else "Loop finished") }

/-- The tail of `executeLoop`'s `try` (job-manager.ts lines 358–371),
run after `loopExecutor.execute` resolves with `result`: store the
result, copy `tasksCompleted`/`tasksTotal` from `result.finalState` into
the progress, and — unless the status meanwhile became `cancelled` — set
the final status from `result.success`. -/
def execLoopFinish (m : MState) (jobId : String) (result : LoopResult)
    (now1 now2 : Nat) : Except String MState := do
  let st ← updateResult m.store jobId (.loop result)
  let st ← updateProgress st jobId (loopFinishPartial result) now1
  if (mapGet st.jobs jobId).map (·.status) == some .cancelled then
    .ok { m with store := st }
  else do
    let st ← updateStatus st jobId (if result.success then .completed else .failed)
      none now2
    .ok { m with store := st }

/-! ## Concrete scenarios

Named inputs and traces the theorems below evaluate the embedding on.
Each scenario replays an interleaving the Node event loop can realise:
an API call such as `cancel` runs to completion while a background
execution is suspended at its worker invocation. -/

/-- A story template with neutral fields. -/
def baseStory : UserStory :=
  { id := ""
    title := "t"
    description := "d"
    acceptanceCriteria := []
    priority := 0
    estimatedComplexity := 1
    passes := false }

/-- Incomplete story `A` with priority 2. -/
def storyA : UserStory := { baseStory with id := "A", priority := 2 }

/-- Incomplete story `B` with priority 1. -/
def storyB : UserStory := { baseStory with id := "B", priority := 1 }

/-- A two-story backlog holding `A` (priority 2) then `B` (priority 1). -/
def specAB : PRDSpec :=
  { project := "p", branchName := "main", description := "", userStories := [storyA, storyB] }

/-- A backlog for the fail-fast scenario: `S1` already passed, `S2`
incomplete — so 1 of 2 sub-tasks are complete when the loop starts. -/
def specFailFast : PRDSpec :=
  { project := "p", branchName := "main", description := ""
    userStories :=
      [{ baseStory with id := "S1", priority := 1, passes := true },
       { baseStory with id := "S2", priority := 2 }] }

/-- A worker whose every invocation fails (as `SingleShotExecutor.execute`
reports failure: `success := false`, no data). -/
def failingWorker : Nat → ExecResult := fun _ => { success := false, data := none, duration := 7 }

/-- A worker whose every invocation succeeds but reports `passes: false`. -/
def passesFalseWorker : Nat → ExecResult := fun _ =>
  { success := true
    data := some
      { success := true, summary := "did work", filesChanged := ["f.ts"]
        learnings := none, passes := false }
    duration := 3 }

/-- The fail-fast run of claim C3: fail-fast strategy, progress file
supplied, worker fails on iteration 1. -/
def failFastRun : LoopResult × LoopIterState :=
  runLoop failingWorker (fun _ => false)
    { progressFile := true, maxIterations := none, mode := some .code, failFast := true }
    specFailFast

/-- The loop options of claim C2's scenario: progress file supplied, one
iteration, no fail-fast. -/
def passesFalseOpts : LoopOptions :=
  { progressFile := true, maxIterations := some 1, mode := some .code, failFast := false }

/-- The fresh engine state `runLoop` starts from for a loaded PRD. -/
def initLoopState (spec : PRDSpec) : LoopIterState :=
  { spec := spec, iterations := [], progressEntries := [], backlogSaves := [] }

/-- The one-iteration run of claim C2's counterexample: the worker
succeeds with `passes: false` on the only iteration. -/
def passesFalseRun : LoopResult × LoopIterState :=
  runLoop passesFalseWorker (fun _ => false) passesFalseOpts specAB

/-- An empty manager with no concurrency limit. -/
def emptyManager : MState := { store := { jobs := [] } }

/-- An empty manager admitting at most one concurrent job. -/
def limitOneManager : MState := { store := { jobs := [] }, maxConcurrentJobs := some 1 }

/-- Claim C1's trace, first half: start a single-shot job, let its
detached execution mark it running, then `cancel` it while the worker
invocation is still suspended. -/
def c1AfterCancel : Except String MState := do
  let r1 ← startSingleShot emptyManager "job-1" 0
  let m2 ← execSingleShotBegin r1.1 "job-1" 1 2
  let r3 ← cancel m2 "job-1" 3
  pure r3.1

/-- Claim C1's trace, second half: the suspended execution resumes with a
successful worker result and runs its unconditional finishing writes. -/
def c1AfterFinish : Except String MState := do
  let m3 ← c1AfterCancel
  execSingleShotFinish m3 "job-1" { success := true, data := none, duration := 5 } 4 5

/-- Claim C5's trace: with `maxConcurrentJobs = 1`, start job `a`, then
`cancel` it while its execution is suspended at the worker invocation
(so its promise has not settled), then attempt to start job `b`. -/
def c5AfterCancel : Except String MState := do
  let r1 ← startSingleShot limitOneManager "a" 0
  let r2 ← cancel r1.1 "a" 1
  pure r2.1

/-- Claim C8's trace: start a loop job, let its execution mark it
running, then run the wrapped per-iteration callback for a successful
first iteration. -/
def c8AfterIteration : Except String MState := do
  let r1 ← startLoop emptyManager "L" 0
  let m2 ← execLoopBegin r1.1 "L" 1 2
  loopOnIteration m2 "L" { iteration := 1, taskId := "S", success := true, duration := 5 } 3

/-- A terminal job used to instantiate hypotheses about pre-existing
records. -/
def oldRunningJob : Job :=
  { id := "dup"
    type := .singleShot
    status := .running
    createdAt := 10
    startedAt := some 11
    error := some "old"
    result := some (.single { success := false, data := none, duration := 1 }) }

/-- A serialized running job, as `initialize()` would find it after a
crash. -/
def persistedRunning : SerializedJob :=
  { id := "R1", type := .singleShot, status := .running, createdAt := 100, startedAt := some 110 }

/-- The progress snapshot of a freshly-started loop job after
`execLoopBegin`. -/
def runningLoopProgress : JobProgress :=
  { currentIteration := 0
    totalIterations := none
    currentTaskId := none
    tasksCompleted := 0
    tasksTotal := 0
    lastUpdate := 2
    message := some "Starting loop execution..." }

/-- A concrete running loop job used to instantiate progress-invariant
hypotheses. -/
def runningLoopJob : Job :=
  { id := "L"
    type := .loop
    status := .running
    createdAt := 0
    startedAt := some 1
    progress := some runningLoopProgress }

/-! ## General lemmas -/

theorem mapGet_mapSet_self (m : List (String × Job)) (k : String) (v : Job) :
    mapGet (mapSet m k v) k = some v := by
  induction m with
  | nil => simp [mapSet, mapGet]
  | cons kv rest ih =>
    obtain ⟨a, b⟩ := kv
    by_cases h : a = k
    · subst h
      simp [mapSet, mapGet]
    · simp [mapSet, mapGet, h, ih]

theorem mapGet_mapSet_other (m : List (String × Job)) (k k' : String) (v : Job)
    (h : k' ≠ k) : mapGet (mapSet m k v) k' = mapGet m k' := by
  induction m with
  | nil => simp [mapSet, mapGet, Ne.symm h]
  | cons kv rest ih =>
    obtain ⟨a, b⟩ := kv
    by_cases ha : a = k
    · subst ha
      simp [mapSet, mapGet, Ne.symm h]
    · by_cases ha' : a = k'
      · subst ha'
        simp [mapSet, mapGet, ha]
      · simp [mapSet, mapGet, ha, ha', ih]

/-- The head of a stable insertion is governed by the priority comparison
with the previous head. -/
theorem head_insertByPriority (s : UserStory) (l : List UserStory) :
    (insertByPriority s l).head? =
      match l.head? with
      | none => some s
      | some t => if s.priority ≤ t.priority then some s else some t := by
  cases l with
  | nil => rfl
  | cons t ts =>
    simp only [insertByPriority, List.head?]
    by_cases h : s.priority ≤ t.priority <;> simp [h]

/-- The head of the stable sort is the first element attaining the
minimum priority. -/
theorem head_sortByPriority (l : List UserStory) :
    (sortByPriority l).head? = specFirstMin l := by
  induction l with
  | nil => rfl
  | cons x xs ih =>
    simp only [sortByPriority, specFirstMin]
    rw [head_insertByPriority, ih]

/-- The jobs-map component of `loadPersistedJobs` is the plain fold of
per-file processing. -/
theorem loadPersistedJobs_fst (maxJobAge now : Nat) (files : List JobFile) :
    (loadPersistedJobs maxJobAge now files).1
      = files.foldl (fun m f => (loadOne m maxJobAge now f).1) [] := by
  suffices h : ∀ init : List (String × Job) × Nat,
      (files.foldl (fun acc f =>
        let step := loadOne acc.1 maxJobAge now f
        (step.1, acc.2 + (if step.2 then 1 else 0))) init).1
      = files.foldl (fun m f => (loadOne m maxJobAge now f).1) init.1 by
    exact h ([], 0)
  induction files with
  | nil => intro init; rfl
  | cons f fs ih => intro init; exact ih _

/-- Processing a file whose id differs from `k` leaves the entry under
`k` alone. -/
theorem loadOne_preserves_other (m : List (String × Job)) (a n : Nat) (f : JobFile)
    (k : String) (h : ∀ s, f = .ok s → s.id ≠ k) :
    mapGet (loadOne m a n f).1 k = mapGet m k := by
  cases f with
  | malformed => rfl
  | ok s =>
    have hne : k ≠ s.id := Ne.symm (h s rfl)
    simp only [loadOne]
    split_ifs with h1 h2 h3
    · exact mapGet_mapSet_other m _ k _ hne
    · exact mapGet_mapSet_other m _ k _ hne
    · exact mapGet_mapSet_other m _ k _ hne
    · rfl

/-- Folding files none of which carries id `k` preserves the entry under
`k`. -/
theorem loadFold_preserves_other (a n : Nat) (fs : List JobFile) (k : String)
    (h : ∀ s, JobFile.ok s ∈ fs → s.id ≠ k) :
    ∀ m, mapGet (fs.foldl (fun m f => (loadOne m a n f).1) m) k = mapGet m k := by
  induction fs with
  | nil => intro m; rfl
  | cons f rest ih =>
    intro m
    rw [List.foldl_cons, ih (fun s hs => h s (List.mem_cons_of_mem _ hs)),
      loadOne_preserves_other m a n f k (fun s hf => h s (hf ▸ List.mem_cons_self _ _))]

/-- Re-merging the same partial progress over an already-merged value
changes only the `lastUpdate` stamp. -/
theorem mergeProgress_restamps (prev : Option JobProgress) (p : PartialProgress)
    (now1 now2 : Nat) :
    mergeProgress (some (mergeProgress prev p now1)) p now2
      = { mergeProgress prev p now1 with lastUpdate := now2 } := by
  cases hp1 : p.currentIteration <;> cases hp2 : p.totalIterations <;>
    cases hp3 : p.currentTaskId <;> cases hp4 : p.tasksCompleted <;>
    cases hp5 : p.tasksTotal <;> cases hp6 : p.message <;>
    simp [mergeProgress, hp1, hp2, hp3, hp4, hp5, hp6]

/-- Every result a loop-body pass finishes with satisfies
`tasksCompleted ≤ tasksTotal` in its final state: the all-complete and
post-loop results count a filtered sublist of the backlog, and the catch
result reports 0 of 0. -/
theorem loopStep_finished_le (worker : Nat → ExecResult) (cancelled : Nat → Bool)
    (opts : LoopOptions) (n : Nat) (st : LoopIterState) (r : LoopResult)
    (st' : LoopIterState)
    (h : loopStep worker cancelled opts n st = .finished r st') :
    r.finalState.tasksCompleted ≤ r.finalState.tasksTotal := by
  simp only [loopStep] at h
  split at h
  · cases h
    exact List.length_filter_le _ _
  · split at h
    · split at h
      · cases h
        exact List.length_filter_le _ _
      · cases h
    · split at h
      · cases h
        exact le_rfl
      · split at h
        · cases h
          exact List.length_filter_le _ _
        · cases h

/-- The bounded loop always returns a final state with
`tasksCompleted ≤ tasksTotal`. -/
theorem runLoopAux_finalState_le (worker : Nat → ExecResult) (cancelled : Nat → Bool)
    (opts : LoopOptions) :
    ∀ (fuel iteration : Nat) (st : LoopIterState),
      (runLoopAux worker cancelled opts iteration fuel st).1.finalState.tasksCompleted ≤
        (runLoopAux worker cancelled opts iteration fuel st).1.finalState.tasksTotal := by
  intro fuel
  induction fuel with
  | zero =>
    intro iteration st
    exact List.length_filter_le _ _
  | succ n ih =>
    intro iteration st
    simp only [runLoopAux]
    cases h : loopStep worker cancelled opts (iteration + 1) st with
    | finished r st' =>
      exact loopStep_finished_le worker cancelled opts (iteration + 1) st r st' h
    | next st' => exact ih (iteration + 1) st'

/-- `updateStatus` with no error argument alters only the status and
timestamp fields: the job's progress survives untouched. -/
theorem updateStatus_none_preserves_progress (st : JobStoreState) (id : String)
    (status : JobStatus) (now : Nat) (job : Job)
    (hjob : mapGet st.jobs id = some job) (hid : job.id = id) :
    ∃ job', updateStatus st id status none now = .ok (save st job') ∧
      job'.id = job.id ∧ job'.progress = job.progress ∧ job'.status = status := by
  subst hid
  simp only [updateStatus, hjob]
  split_ifs with h1 h2
  · exact ⟨_, rfl, rfl, rfl, rfl⟩
  · exact ⟨_, rfl, rfl, rfl, rfl⟩
  · exact ⟨_, rfl, rfl, rfl, rfl⟩
  · exact ⟨_, rfl, rfl, rfl, rfl⟩

/-- Reducing an Except bind whose first component is a literal `ok`. -/
theorem bindOk {α β : Type} (a : α) (f : α → Except String β) :
    (Except.ok a : Except String α) >>= f = f a := rfl

/-- The finishing writes of `executeLoop` leave the job's progress
carrying exactly the loop result's final-state counts, whether or not
the job was cancelled meanwhile. -/
theorem execLoopFinish_progress (m : MState) (id : String) (r : LoopResult)
    (now1 now2 : Nat) (job : Job)
    (hjob : mapGet m.store.jobs id = some job) (hid : job.id = id) :
    ∃ (m' : MState) (q : JobProgress),
      execLoopFinish m id r now1 now2 = .ok m' ∧
      (mapGet m'.store.jobs id).bind (·.progress) = some q ∧
      q.tasksCompleted = r.finalState.tasksCompleted ∧
      q.tasksTotal = r.finalState.tasksTotal := by
  subst hid
  have hres : updateResult m.store job.id (.loop r)
      = .ok (save m.store { job with result := some (.loop r) }) := by
    simp only [updateResult, hjob]
  have hget1 : mapGet (save m.store { job with result := some (.loop r) }).jobs job.id
      = some { job with result := some (.loop r) } :=
    mapGet_mapSet_self _ _ _
  have hprog : updateProgress (save m.store { job with result := some (.loop r) })
      job.id (loopFinishPartial r) now1
      = .ok (save (save m.store { job with result := some (.loop r) })
          { job with
            result := some (.loop r)
            progress := some (mergeProgress job.progress (loopFinishPartial r) now1) }) := by
    simp only [updateProgress, hget1]
  have hget2 : mapGet (save (save m.store { job with result := some (.loop r) })
        { job with
          result := some (.loop r)
          progress := some (mergeProgress job.progress (loopFinishPartial r) now1) }).jobs
        job.id
      = some { job with
          result := some (.loop r)
          progress := some (mergeProgress job.progress (loopFinishPartial r) now1) } :=
    mapGet_mapSet_self _ _ _
  have hqc : (mergeProgress job.progress (loopFinishPartial r) now1).tasksCompleted
      = r.finalState.tasksCompleted := by
    simp [mergeProgress, loopFinishPartial]
  have hqt : (mergeProgress job.progress (loopFinishPartial r) now1).tasksTotal
      = r.finalState.tasksTotal := by
    simp [mergeProgress, loopFinishPartial]
  by_cases hcanc : job.status = JobStatus.cancelled
  · refine ⟨{ m with
      store := save (save m.store { job with result := some (.loop r) })
          { job with
            result := some (.loop r)
            progress := some (mergeProgress job.progress (loopFinishPartial r) now1) } },
      mergeProgress job.progress (loopFinishPartial r) now1, ?_, ?_, hqc, hqt⟩
    · simp only [execLoopFinish]
      rw [hres, bindOk, hprog, bindOk, hget2]
      simp [hcanc]
    · simp [hget2]
  · obtain ⟨job2, hupd, hid2, hprog2, _⟩ :=
      updateStatus_none_preserves_progress
        (save (save m.store { job with result := some (.loop r) })
          { job with
            result := some (.loop r)
            progress := some (mergeProgress job.progress (loopFinishPartial r) now1) })
        job.id (if r.success then .completed else .failed) now2
        { job with
          result := some (.loop r)
          progress := some (mergeProgress job.progress (loopFinishPartial r) now1) }
        hget2 rfl
    refine ⟨{ m with
      store := save (save (save m.store { job with result := some (.loop r) })
          { job with
            result := some (.loop r)
            progress := some (mergeProgress job.progress (loopFinishPartial r) now1) }) job2 },
      mergeProgress job.progress (loopFinishPartial r) now1, ?_, ?_, hqc, hqt⟩
    · simp only [execLoopFinish]
      rw [hres, bindOk, hprog, bindOk, hget2]
      rw [if_neg (by simp [hcanc])]
      rw [hupd, bindOk]
    · have hid2' : job2.id = job.id := hid2
      have hsget : mapGet (save (save (save m.store { job with result := some (.loop r) })
          { job with
            result := some (.loop r)
            progress := some (mergeProgress job.progress (loopFinishPartial r) now1) })
            job2).jobs job.id
          = some job2 := by
        rw [← hid2']
        exact mapGet_mapSet_self _ _ _
      rw [hsget]
      simp [hprog2]

/-! ## Claim theorems -/

/-- C7: sub-task selection by the loop engine is the deterministic total
order by (priority ascending, original index ascending) over incomplete
backlog items: `getNextStory` equals the spec-order selection
`specNextStory` (the first incomplete story of minimal priority) on every
backlog; and for a backlog of incomplete stories A (priority 2) and B
(priority 1), it returns B — on every call, `getNextStory` being a pure
function of the backlog — until B is marked complete, after which it
returns A. -/
theorem C7_selection_total_order :
    (∀ spec : PRDSpec, getNextStory spec = specNextStory spec) ∧
    (∀ (A B : UserStory) (spec : PRDSpec),
      A.priority = 2 → B.priority = 1 → A.passes = false → B.passes = false →
      A.id ≠ B.id → spec.userStories = [A, B] →
      getNextStory spec = some B ∧
      getNextStory (markStoryComplete spec B.id) = some A) := by
  constructor
  · intro spec
    simp only [getNextStory, specNextStory]
    rcases h : spec.userStories.filter (fun s => !s.passes) with _ | ⟨x, xs⟩
    · rw [h]
      simp [specFirstMin]
    · rw [h]
      simp [head_sortByPriority]
  · intro A B spec hA2 hB1 hAp hBp hid hs
    constructor
    · simp [getNextStory, hs, hAp, hBp, sortByPriority, insertByPriority, hA2, hB1]
    · simp [getNextStory, markStoryComplete, hs, hid, hAp, sortByPriority, insertByPriority]

/-- C7 witness: on the concrete two-story backlog, selection returns B
first and A once B is complete. -/
theorem C7_selection_total_order_witness :
    getNextStory specAB = some storyB ∧
    getNextStory (markStoryComplete specAB storyB.id) = some storyA :=
  C7_selection_total_order.2 storyA storyB specAB rfl rfl rfl rfl (by decide) rfl

/-- C2 counterexample: a loop iteration whose worker succeeds with a
`passes: false` outcome. The claim says none of marking-complete,
appending a progress-log entry, or persisting the backlog happens; in
the code only the marking is skipped — after the run the story is still
incomplete, yet one progress-log entry was appended and the backlog was
persisted once. -/
theorem C2_passesFalse_still_appends :
    passesFalseRun.2.spec.userStories.map (fun s => s.passes) = [false, false] ∧
    passesFalseRun.2.progressEntries.length = 1 ∧
    passesFalseRun.2.backlogSaves.length = 1 :=
  ⟨rfl, rfl, rfl⟩

/-- C2 (amended): for every loop iteration whose worker invocation
succeeds (with validated data), the engine appends a progress-log entry
(when a progress file was supplied) and persists the backlog; the
selected sub-task is marked complete exactly when the outcome has
`passes: true` — on `passes: false` the backlog is persisted unchanged. -/
theorem C2_iteration_effects (worker : Nat → ExecResult) (cancelled : Nat → Bool)
    (opts : LoopOptions) (n : Nat) (st : LoopIterState) (story : UserStory) (d : StoryData)
    (hstory : getNextStory st.spec = some story)
    (hsucc : (worker n).success = true)
    (hdata : (worker n).data = some d)
    (hcancel : cancelled n = false) :
    loopStep worker cancelled opts n st = .next
      { spec := if d.passes then markStoryComplete st.spec story.id else st.spec
        iterations := st.iterations ++
          [{ iteration := n, taskId := story.id, success := true, commits := []
             duration := (worker n).duration }]
        progressEntries :=
          if opts.progressFile then
            st.progressEntries ++
              [{ storyId := story.id, summary := d.summary
                 filesChanged := d.filesChanged, learnings := d.learnings.getD [] }]
          else st.progressEntries
        backlogSaves := st.backlogSaves ++
          [(if d.passes then markStoryComplete st.spec story.id else st.spec).userStories] } := by
  simp only [loopStep, hstory, hsucc, hdata, hcancel]
  simp

/-- C2 witness: the amended iteration effects at the concrete
`passes: false` scenario — story B selected, not marked complete, entry
appended, backlog persisted unchanged. -/
theorem C2_iteration_effects_witness :
    loopStep passesFalseWorker (fun _ => false) passesFalseOpts 1 (initLoopState specAB)
      = .next
        { spec := specAB
          iterations := [{ iteration := 1, taskId := "B", success := true, commits := []
                           duration := 3 }]
          progressEntries := [{ storyId := "B", summary := "did work"
                                filesChanged := ["f.ts"], learnings := [] }]
          backlogSaves := [[storyA, storyB]] } := by
  have h := C2_iteration_effects passesFalseWorker (fun _ => false) passesFalseOpts 1
    (initLoopState specAB) storyB
    { success := true, summary := "did work", filesChanged := ["f.ts"]
      learnings := none, passes := false }
    rfl rfl rfl rfl
  simpa [initLoopState, passesFalseOpts, specAB] using h

/-- C3: the loop engine evaluated at the failing input — a fail-fast
loop over a two-story backlog with one story already complete, whose
worker invocation fails on iteration 1. The loop aborts immediately with
an incomplete failure carrying the single-iteration history, but the
returned final state reports `tasksCompleted = 0` and `tasksTotal = 0`,
while the backlog's actual counts are 1 completed of 2 total: the
`TaskIncompleteError(completed, total)` raised at loop.ts lines 132–135
is swallowed by the executor's own catch, which zeroes the counts. -/
theorem C3_failFast_counts_zeroed :
    failFastRun.1.success = false ∧
    failFastRun.1.completed = false ∧
    failFastRun.1.iterations.length = 1 ∧
    failFastRun.1.finalState.tasksCompleted = 0 ∧
    failFastRun.1.finalState.tasksTotal = 0 ∧
    getProgress specFailFast = (1, 2) :=
  ⟨rfl, rfl, rfl, rfl, rfl, rfl⟩

/-- C1: the job-manager trace evaluated at the failing input — a
single-shot job cancelled while its worker invocation is suspended. The
`cancel` call leaves the job in the terminal status `cancelled`, yet
when the detached execution resumes, `executeSingleShot` unconditionally
writes the final status (and `JobStore.updateStatus` has no
terminal-state guard), moving the job from `cancelled` to `completed`. -/
theorem C1_cancelled_then_completed :
    (c1AfterCancel.map fun m => (get m.store "job-1").map (·.status))
        = .ok (some .cancelled) ∧
    (c1AfterFinish.map fun m => (get m.store "job-1").map (·.status))
        = .ok (some .completed) :=
  ⟨rfl, rfl⟩

/-- Removing a present key shrinks the `runningJobs` key set. -/
theorem length_runningRemove_lt (l : List String) (jid : String) (h : jid ∈ l) :
    (runningRemove l jid).length < l.length := by
  induction l with
  | nil => cases h
  | cons a rest ih =>
    by_cases ha : a = jid
    · subst ha
      have hle := List.length_filter_le (fun x => x != a) rest
      simp [runningRemove, List.filter_cons]
      omega
    · rcases List.mem_cons.mp h with heq | hmem
      · exact absurd heq.symm ha
      · have hlt := ih hmem
        simp only [runningRemove, List.filter_cons, List.length_cons] at *
        have hab : (a != jid) = true := by simp [ha]
        rw [hab]
        simp only [if_true, List.length_cons]
        omega

/-- C5 (amended): admission is decided by the number of unsettled
background executions — the `runningJobs` map the manager keeps — not by
the count of non-terminal jobs in the store: with `maxConcurrentJobs =
N`, a startSingleShot/startLoop call succeeds when fewer than N
executions are in flight and is rejected with the admission error when at
least N are; and once one of the N in-flight executions settles (its
promise's `finally` removes it from `runningJobs` — which cancel alone
does not do), a subsequent start succeeds. -/
theorem C5_admission_counts_inflight (m : MState) (n : Nat) (id jid : String) (now : Nat)
    (hmax : m.maxConcurrentJobs = some n) :
    (m.runningJobs.length < n →
      startSingleShot m id now =
        .ok ({ m with store := save m.store (newSingleShotJob id now)
                      runningJobs := runningAdd m.runningJobs id }, id) ∧
      startLoop m id now =
        .ok ({ m with store := save m.store (newLoopJob id now)
                      runningJobs := runningAdd m.runningJobs id
                      cancellationTokens := (id, false) ::
                        m.cancellationTokens.filter (·.1 != id) }, id)) ∧
    (m.runningJobs.length ≥ n →
      startSingleShot m id now = .error admissionError ∧
      startLoop m id now = .error admissionError) ∧
    (jid ∈ m.runningJobs → m.runningJobs.length = n →
      ∃ m', startSingleShot (settleSingleShot m jid) id now = .ok (m', id)) := by
  refine ⟨?_, ?_, ?_⟩
  · intro h
    have hn : ¬ (m.runningJobs.length ≥ n) := by omega
    have hc : checkConcurrencyLimit m = false := by
      simp [checkConcurrencyLimit, hmax, hn]
    exact ⟨by simp [startSingleShot, hc], by simp [startLoop, hc]⟩
  · intro h
    have hc : checkConcurrencyLimit m = true := by
      simp [checkConcurrencyLimit, hmax, h]
    exact ⟨by simp [startSingleShot, hc], by simp [startLoop, hc]⟩
  · intro hmem hlen
    have hlt := length_runningRemove_lt m.runningJobs jid hmem
    have hc : checkConcurrencyLimit (settleSingleShot m jid) = false := by
      simp only [checkConcurrencyLimit, settleSingleShot, hmax, decide_eq_false_iff_not,
        ge_iff_le, Nat.not_le]
      omega
    refine ⟨{ settleSingleShot m jid with
        store := save (settleSingleShot m jid).store (newSingleShotJob id now)
        runningJobs := runningAdd (settleSingleShot m jid).runningJobs id }, ?_⟩
    simp [startSingleShot, hc]

/-- C5 witness: with limit 1 and one in-flight execution `a`, a second
start is rejected; after `a`'s execution settles, it succeeds. -/
theorem C5_admission_counts_inflight_witness :
    ∃ msta : MState × String, startSingleShot limitOneManager "a" 0 = .ok msta ∧
      startSingleShot msta.1 "b" 2 = .error admissionError ∧
      ∃ m', startSingleShot (settleSingleShot msta.1 "a") "b" 2 = .ok (m', "b") := by
  refine ⟨_, rfl, ?_, ?_⟩
  · exact (C5_admission_counts_inflight _ 1 "b" "a" 2 rfl).2.1 (by decide) |>.1
  · exact (C5_admission_counts_inflight _ 1 "b" "a" 2 rfl).2.2 (by decide) rfl

/-- C6: for every job id present in the store, `poll` succeeds and its
snapshot has `finished = true` exactly when the status is completed,
failed or cancelled; includes the stored result exactly when finished;
and includes `duration = completedAt − startedAt` exactly when finished
and both timestamps are present. -/
theorem C6_poll_finished_result_duration (m : MState) (jobId : String) (job : Job)
    (h : get m.store jobId = some job) :
    ∃ res : JobPollResult, poll m jobId = .ok res ∧
      res.status = job.status ∧
      (res.finished = true ↔
        (job.status = .completed ∨ job.status = .failed ∨ job.status = .cancelled)) ∧
      res.result = (if res.finished then job.result else none) ∧
      (∀ d : Int, res.duration = some d ↔
        res.finished = true ∧ ∃ c s, job.completedAt = some c ∧ job.startedAt = some s ∧
          d = (c : Int) - (s : Int)) := by
  refine
    ⟨{ id := job.id, status := job.status, progress := job.progress
       finished := terminalStatuses.contains job.status
       result := if terminalStatuses.contains job.status then job.result else none
       error := job.error
       duration :=
        if terminalStatuses.contains job.status then
          match job.completedAt, job.startedAt with
          | some c, some s => some ((c : Int) - (s : Int))
          | _, _ => none
        else none }, ?_, rfl, ?_, rfl, ?_⟩
  · simp [poll, h]
  · cases job.status <;> simp [terminalStatuses]
  · intro d
    by_cases hf : terminalStatuses.contains job.status = true
    · rw [hf]
      simp only [if_true]
      cases hc : job.completedAt <;> cases hs : job.startedAt <;> simp [eq_comm]
    · simp only [Bool.not_eq_true] at hf
      rw [hf]
      simp

/-- C6 witness: polling a concrete completed job yields a finished
snapshot with its result and duration, and polling a running job yields
an unfinished one without them. -/
theorem C6_poll_witness :
    ∃ res : JobPollResult,
      poll { store := { jobs := [("dup", { oldRunningJob with
        status := .completed, completedAt := some 25 })] } } "dup" = .ok res ∧
      res.finished = true ∧ res.duration = some 14 := by
  obtain ⟨res, hpoll, _, hfin, _, hdur⟩ :=
    C6_poll_finished_result_duration
      { store := { jobs := [("dup", { oldRunningJob with
          status := .completed, completedAt := some 25 })] } } "dup"
      { oldRunningJob with status := .completed, completedAt := some 25 } rfl
  refine ⟨res, hpoll, hfin.mpr (Or.inl rfl), ?_⟩
  exact (hdur 14).mpr ⟨hfin.mpr (Or.inl rfl), 25, 11, rfl, rfl, by norm_num⟩

/-- C4: after the store initializes from persisted job files (each file
either decoding to a serialized job or malformed), a job persisted as
`running` is loaded with status `failed`, the reserved
interrupted-by-restart message, and a stamped `completedAt`; a job
persisted in a terminal status whose completion time (falling back to
its creation time) is within the max-age window is loaded unchanged; a
terminal job outside the window is not loaded and its file is deleted;
and a malformed file is skipped — initialization over a listing
containing it equals initialization over the listing without it. -/
theorem C4_restart_recovery (maxJobAge now : Nat) (l1 l2 : List JobFile)
    (s : SerializedJob)
    (huniq : ∀ s', JobFile.ok s' ∈ l1 ++ l2 → s'.id ≠ s.id) :
    ((deserializeJob s).status = .running →
      mapGet (loadPersistedJobs maxJobAge now (l1 ++ JobFile.ok s :: l2)).1 s.id
        = some { deserializeJob s with
            status := .failed, error := some interruptedMessage, completedAt := some now }) ∧
    ((deserializeJob s).status.isTerminal = true →
      ((now : Int) - ((deserializeJob s).completedAt.getD (deserializeJob s).createdAt : Nat)
          < (maxJobAge : Int)) →
      mapGet (loadPersistedJobs maxJobAge now (l1 ++ JobFile.ok s :: l2)).1 s.id
        = some (deserializeJob s)) ∧
    ((deserializeJob s).status.isTerminal = true →
      ¬((now : Int) - ((deserializeJob s).completedAt.getD (deserializeJob s).createdAt : Nat)
          < (maxJobAge : Int)) →
      mapGet (loadPersistedJobs maxJobAge now (l1 ++ JobFile.ok s :: l2)).1 s.id = none ∧
      ∀ m, (loadOne m maxJobAge now (JobFile.ok s)).2 = true) ∧
    (∀ fs1 fs2 : List JobFile,
      loadPersistedJobs maxJobAge now (fs1 ++ JobFile.malformed :: fs2)
        = loadPersistedJobs maxJobAge now (fs1 ++ fs2)) := by
  have hu1 : ∀ s', JobFile.ok s' ∈ l1 → s'.id ≠ s.id :=
    fun s' hs' => huniq s' (List.mem_append_left _ hs')
  have hu2 : ∀ s', JobFile.ok s' ∈ l2 → s'.id ≠ s.id :=
    fun s' hs' => huniq s' (List.mem_append_right _ hs')
  have hmain : mapGet (loadPersistedJobs maxJobAge now (l1 ++ JobFile.ok s :: l2)).1 s.id
      = mapGet (loadOne (l1.foldl (fun m f => (loadOne m maxJobAge now f).1) [])
          maxJobAge now (JobFile.ok s)).1 s.id := by
    rw [loadPersistedJobs_fst, List.foldl_append, List.foldl_cons]
    exact loadFold_preserves_other maxJobAge now l2 s.id hu2 _
  have hm1 : mapGet (l1.foldl (fun m f => (loadOne m maxJobAge now f).1) []) s.id = none := by
    rw [loadFold_preserves_other maxJobAge now l1 s.id hu1 []]
    rfl
  refine ⟨?_, ?_, ?_, ?_⟩
  · intro hrun
    rw [hmain]
    have hterm : (deserializeJob s).status.isTerminal = false := by
      rw [hrun]; rfl
    simp only [loadOne, hterm, Bool.not_false, if_true, hrun, beq_self_eq_true]
    exact mapGet_mapSet_self _ _ _
  · intro hterm hyoung
    rw [hmain]
    simp only [loadOne, hterm, Bool.not_true, Bool.false_eq_true, if_false, hyoung, if_true]
    exact mapGet_mapSet_self _ _ _
  · intro hterm hold
    constructor
    · rw [hmain]
      simp only [loadOne, hterm, Bool.not_true, Bool.false_eq_true, if_false, hold, if_false]
      exact hm1
    · intro m
      simp only [loadOne, hterm, Bool.not_true, Bool.false_eq_true, if_false, hold, if_false]
  · intro fs1 fs2
    simp only [loadPersistedJobs, List.foldl_append, List.foldl_cons, loadOne]
    simp

/-- C4 witness: a store initialized from a malformed file followed by a
persisted running job loads that job as failed with the reserved
message. -/
theorem C4_restart_recovery_witness :
    mapGet (loadPersistedJobs 1000 500 [JobFile.malformed, JobFile.ok persistedRunning]).1 "R1"
      = some { deserializeJob persistedRunning with
          status := .failed, error := some interruptedMessage, completedAt := some 500 } :=
  (C4_restart_recovery 1000 500 [JobFile.malformed] [] persistedRunning
    (by intro s' hs' ; simp at hs')).1 rfl

/-- C8 counterexample: a loop job started with the 0/0 progress
placeholder undergoes its first successful per-iteration progress update
— the wrapped `onIteration` increments `tasksCompleted` but never
updates `tasksTotal` — leaving `tasksCompleted = 1 > 0 = tasksTotal`,
against the claimed `tasksCompleted ≤ tasksTotal` invariant during a
running loop job's per-iteration updates. -/
theorem C8_counterexample :
    (c8AfterIteration.map fun m =>
      ((get m.store "L").bind (·.progress)).map fun p => (p.tasksCompleted, p.tasksTotal))
      = .ok (some (1, 0)) :=
  rfl

/-- C8 (amended): every progress update stamps `lastUpdate` to the
current time, so successive updates are monotone in `lastUpdate` under a
monotone clock; but `tasksCompleted ≤ tasksTotal` does not hold across a
running loop job's per-iteration updates — `tasksTotal` stays at its 0
placeholder while `tasksCompleted` increments — and is restored by the
final progress update of `executeLoop`, which copies both counters from
the loop result's final state, where `tasksCompleted ≤ tasksTotal`
always holds. -/
theorem C8_lastUpdate_monotone_and_final_invariant (st : JobStoreState) (id : String)
    (p : PartialProgress) (now : Nat) (job : Job) (q0 : JobProgress)
    (hjob : mapGet st.jobs id = some job) (hid : job.id = id)
    (hq0 : job.progress = some q0) (hclock : q0.lastUpdate ≤ now) :
    (∃ st' q, updateProgress st id p now = .ok st' ∧
      (mapGet st'.jobs id).bind (·.progress) = some q ∧
      q.lastUpdate = now ∧ q0.lastUpdate ≤ q.lastUpdate) ∧
    (∀ (worker : Nat → ExecResult) (cancelled : Nat → Bool) (opts : LoopOptions)
      (spec : PRDSpec),
      (runLoop worker cancelled opts spec).1.finalState.tasksCompleted ≤
        (runLoop worker cancelled opts spec).1.finalState.tasksTotal) ∧
    (∀ (worker : Nat → ExecResult) (cancelled : Nat → Bool) (opts : LoopOptions)
      (spec : PRDSpec) (now2 : Nat),
      ∃ (m' : MState) (q : JobProgress),
        execLoopFinish { store := st } id (runLoop worker cancelled opts spec).1
          now now2 = .ok m' ∧
        (mapGet m'.store.jobs id).bind (·.progress) = some q ∧
        q.tasksCompleted ≤ q.tasksTotal) := by
  subst hid
  refine ⟨?_, ?_, ?_⟩
  · refine ⟨save st { job with progress := some (mergeProgress job.progress p now) },
      mergeProgress job.progress p now, ?_, ?_, rfl, hclock⟩
    · simp only [updateProgress, hjob]
    · have h : mapGet (save st
            { job with progress := some (mergeProgress job.progress p now) }).jobs job.id
          = some { job with progress := some (mergeProgress job.progress p now) } :=
        mapGet_mapSet_self _ _ _
      simp [h]
  · intro worker cancelled opts spec
    exact runLoopAux_finalState_le worker cancelled opts _ _ _
  · intro worker cancelled opts spec now2
    obtain ⟨m', q, hfin, hq, hqc, hqt⟩ :=
      execLoopFinish_progress { store := st } job.id
        (runLoop worker cancelled opts spec).1 now now2 job hjob rfl
    refine ⟨m', q, hfin, hq, ?_⟩
    rw [hqc, hqt]
    exact runLoopAux_finalState_le worker cancelled opts _ _ _

/-- C8 witness: the amended invariants at a concrete running loop job
and a one-story backlog. -/
theorem C8_lastUpdate_monotone_and_final_invariant_witness :
    (∃ st' q, updateProgress { jobs := [("L", runningLoopJob)] } "L"
        { tasksCompleted := some 1 } 5 = .ok st' ∧
      (mapGet st'.jobs "L").bind (·.progress) = some q ∧
      q.lastUpdate = 5 ∧ runningLoopProgress.lastUpdate ≤ q.lastUpdate) ∧
    (∀ (worker : Nat → ExecResult) (cancelled : Nat → Bool) (opts : LoopOptions)
      (spec : PRDSpec),
      (runLoop worker cancelled opts spec).1.finalState.tasksCompleted ≤
        (runLoop worker cancelled opts spec).1.finalState.tasksTotal) ∧
    (∀ (worker : Nat → ExecResult) (cancelled : Nat → Bool) (opts : LoopOptions)
      (spec : PRDSpec) (now2 : Nat),
      ∃ (m' : MState) (q : JobProgress),
        execLoopFinish { store := { jobs := [("L", runningLoopJob)] } } "L"
          (runLoop worker cancelled opts spec).1 5 now2 = .ok m' ∧
        (mapGet m'.store.jobs "L").bind (·.progress) = some q ∧
        q.tasksCompleted ≤ q.tasksTotal) :=
  C8_lastUpdate_monotone_and_final_invariant { jobs := [("L", runningLoopJob)] } "L"
    { tasksCompleted := some 1 } 5 runningLoopJob runningLoopProgress rfl rfl rfl
    (by decide)

/-- C9: `updateProgress` twice with the same partial value yields the
same merged progress as once, except that `lastUpdate` is restamped:
the second call's tasksCompleted/tasksTotal (indeed every field but
`lastUpdate`) equal the first call's; and fields absent from the partial
value retain their previous values — the zero default for the counters
and pass-through for the optional fields — on the first update. -/
theorem C9_updateProgress_idempotent (st : JobStoreState) (id : String)
    (p : PartialProgress) (now1 now2 : Nat) (job : Job)
    (hjob : mapGet st.jobs id = some job) (hid : job.id = id) :
    ∃ (st1 st2 : JobStoreState) (q1 q2 : JobProgress),
      updateProgress st id p now1 = .ok st1 ∧
      updateProgress st1 id p now2 = .ok st2 ∧
      (mapGet st1.jobs id).bind (·.progress) = some q1 ∧
      (mapGet st2.jobs id).bind (·.progress) = some q2 ∧
      q2 = { q1 with lastUpdate := now2 } ∧
      q1.lastUpdate = now1 ∧
      (p.currentIteration = none →
        q1.currentIteration = (job.progress.map (·.currentIteration)).getD 0) ∧
      (p.tasksCompleted = none →
        q1.tasksCompleted = (job.progress.map (·.tasksCompleted)).getD 0) ∧
      (p.tasksTotal = none →
        q1.tasksTotal = (job.progress.map (·.tasksTotal)).getD 0) ∧
      (p.totalIterations = none → q1.totalIterations = job.progress.bind (·.totalIterations)) ∧
      (p.currentTaskId = none → q1.currentTaskId = job.progress.bind (·.currentTaskId)) ∧
      (p.message = none → q1.message = job.progress.bind (·.message)) := by
  subst hid
  have h1 : mapGet (save st { job with
      progress := some (mergeProgress job.progress p now1) }).jobs job.id
      = some { job with progress := some (mergeProgress job.progress p now1) } :=
    mapGet_mapSet_self _ _ _
  have h2 : mapGet (save (save st { job with
        progress := some (mergeProgress job.progress p now1) })
      { job with progress := some (mergeProgress
          (some (mergeProgress job.progress p now1)) p now2) }).jobs job.id
      = some { job with progress := some (mergeProgress
          (some (mergeProgress job.progress p now1)) p now2) } :=
    mapGet_mapSet_self _ _ _
  refine ⟨save st { job with progress := some (mergeProgress job.progress p now1) },
    save (save st { job with progress := some (mergeProgress job.progress p now1) })
      { job with progress := some (mergeProgress
          (some (mergeProgress job.progress p now1)) p now2) },
    mergeProgress job.progress p now1,
    mergeProgress (some (mergeProgress job.progress p now1)) p now2,
    ?_, ?_, ?_, ?_, ?_, rfl, ?_, ?_, ?_, ?_, ?_, ?_⟩
  · simp only [updateProgress, hjob]
  · simp only [updateProgress, h1]
  · simp [h1]
  · simp [h2]
  · exact mergeProgress_restamps job.progress p now1 now2
  · intro h
    simp [mergeProgress, h]
  · intro h
    simp [mergeProgress, h]
  · intro h
    simp [mergeProgress, h]
  · intro h
    simp [mergeProgress, h]
  · intro h
    simp [mergeProgress, h]
  · intro h
    simp [mergeProgress, h]

/-- C9 witness: two identical partial updates on a concrete job merge to
the same counters, restamping only `lastUpdate`. -/
theorem C9_updateProgress_idempotent_witness :
    ∃ (st1 st2 : JobStoreState) (q1 q2 : JobProgress),
      updateProgress { jobs := [("dup", oldRunningJob)] } "dup"
        { tasksCompleted := some 3 } 5 = .ok st1 ∧
      updateProgress st1 "dup" { tasksCompleted := some 3 } 9 = .ok st2 ∧
      (mapGet st1.jobs "dup").bind (·.progress) = some q1 ∧
      (mapGet st2.jobs "dup").bind (·.progress) = some q2 ∧
      q2 = { q1 with lastUpdate := 9 } ∧
      q1.lastUpdate = 5 ∧
      (({ tasksCompleted := some 3 } : PartialProgress).currentIteration = none →
        q1.currentIteration = (oldRunningJob.progress.map (·.currentIteration)).getD 0) ∧
      (({ tasksCompleted := some 3 } : PartialProgress).tasksCompleted = none →
        q1.tasksCompleted = (oldRunningJob.progress.map (·.tasksCompleted)).getD 0) ∧
      (({ tasksCompleted := some 3 } : PartialProgress).tasksTotal = none →
        q1.tasksTotal = (oldRunningJob.progress.map (·.tasksTotal)).getD 0) ∧
      (({ tasksCompleted := some 3 } : PartialProgress).totalIterations = none →
        q1.totalIterations = oldRunningJob.progress.bind (·.totalIterations)) ∧
      (({ tasksCompleted := some 3 } : PartialProgress).currentTaskId = none →
        q1.currentTaskId = oldRunningJob.progress.bind (·.currentTaskId)) ∧
      (({ tasksCompleted := some 3 } : PartialProgress).message = none →
        q1.message = oldRunningJob.progress.bind (·.message)) :=
  C9_updateProgress_idempotent { jobs := [("dup", oldRunningJob)] } "dup"
    { tasksCompleted := some 3 } 5 9 oldRunningJob rfl rfl

/-- C10: when a start call's supplied job id collides with a job already
in the store (of any status), no error is raised provided admission
passes: the freshly created pending record silently replaces the old one
— `JobStore.save` is an upsert and neither `startSingleShot` nor
`startLoop` checks for an existing id — so `get` returns the new pending
job and `poll` sees pending status with no result, error, or duration. -/
theorem C10_start_replaces_existing (m : MState) (id : String) (now : Nat) (old : Job)
    (hadm : checkConcurrencyLimit m = false)
    (hold : get m.store id = some old) :
    (∃ m', startSingleShot m id now = .ok (m', id) ∧
      get m'.store id = some (newSingleShotJob id now) ∧
      poll m' id = .ok
        { id := id, status := .pending, progress := (newSingleShotJob id now).progress
          finished := false, result := none, error := none, duration := none }) ∧
    (∃ m', startLoop m id now = .ok (m', id) ∧
      get m'.store id = some (newLoopJob id now)) := by
  have hget1 : get (save m.store (newSingleShotJob id now)) id
      = some (newSingleShotJob id now) :=
    mapGet_mapSet_self _ _ _
  have hget2 : get (save m.store (newLoopJob id now)) id = some (newLoopJob id now) :=
    mapGet_mapSet_self _ _ _
  constructor
  · refine ⟨{ m with
      store := save m.store (newSingleShotJob id now)
      runningJobs := runningAdd m.runningJobs id }, ?_, hget1, ?_⟩
    · simp only [startSingleShot, hadm, Bool.false_eq_true, if_false]
    · simp only [poll, hget1]
      rfl
  · refine ⟨{ m with
      store := save m.store (newLoopJob id now)
      runningJobs := runningAdd m.runningJobs id
      cancellationTokens := (id, false) :: m.cancellationTokens.filter (·.1 != id) },
      ?_, hget2⟩
    simp only [startLoop, hadm, Bool.false_eq_true, if_false]

/-- C10 witness: starting over an existing running job under id "dup"
replaces it with the fresh pending record. -/
theorem C10_start_replaces_existing_witness :
    (∃ m', startSingleShot { store := { jobs := [("dup", oldRunningJob)] } } "dup" 42
        = .ok (m', "dup") ∧
      get m'.store "dup" = some (newSingleShotJob "dup" 42) ∧
      poll m' "dup" = .ok
        { id := "dup", status := .pending, progress := (newSingleShotJob "dup" 42).progress
          finished := false, result := none, error := none, duration := none }) ∧
    (∃ m', startLoop { store := { jobs := [("dup", oldRunningJob)] } } "dup" 42
        = .ok (m', "dup") ∧
      get m'.store "dup" = some (newLoopJob "dup" 42)) :=
  C10_start_replaces_existing { store := { jobs := [("dup", oldRunningJob)] } } "dup" 42
    oldRunningJob rfl rfl

/-- C5 counterexample: with `maxConcurrentJobs = 1`, after starting job
`a` and cancelling it (so `a` is terminal and the store holds zero
non-terminal jobs), a start of job `b` is still rejected with the
admission error, because admission counts the unsettled background
executions in `runningJobs`, not the non-terminal jobs in the store. -/
theorem C5_counterexample :
    (c5AfterCancel.map fun m =>
      ((get m.store "a").map (·.status), nonTerminalCount m, m.maxConcurrentJobs,
        startSingleShot m "b" 2))
      = .ok (some .cancelled, 0, some 1, .error admissionError) :=
  rfl

end CCM
